import Mathlib

/-!
Verification of the booking-data reconciliation core of the ChatBot repository.

The Python sources are embedded shallowly:

* `booking/scratchpad.py` (`ScratchpadManager`, `FieldEntry`, `ScratchpadForm`)
  becomes `FieldEntry`, `ScratchpadForm` and the functions `addField`,
  `updateCompleteness`, `clearAll`, `updateField`, `deleteField`.
* `orchestrator/message_processor.py` (the data-population loop of step 8.4,
  the confirmation flow of step 8.5 and the dump/clear block) becomes
  `orchestratorMap`, `populateCollected`, `finalizeChat`,
  `confirmationFlowStep`.
* `orchestrator/scratchpad_coordinator.py` (`update_from_extraction`) becomes
  `updateFromExtraction`.
* `booking/booking_flow_integration.py` (`_add_extracted_data`, the CONFIRM
  branch of `process_for_booking`) becomes `bookingSectionMap`,
  `bookingAddExtracted`, `finalizeBookingConfirm`.
* `retroactive_validator.py` (`RetroactiveScanner.scan_for_name`,
  `_is_vehicle_brand`) becomes `scanForName`, `isVehicleBrand`.
* `config.py` constants become Lean constants of the same names.

Python string values (`Any` in the source, strings in every production path)
are modelled as `Option String` (`none` = Python `None`); Python truthiness of
such a value is `optStrTruthy`.  Python dicts holding the scratchpad sections
are association lists with unique keys (`dictInsert` replaces in place, like a
dict assignment).  Wall-clock timestamps are an explicit `now : Nat` parameter.
`round(x, 1)` on CPython floats is modelled exactly over `ℚ` by
`pyRound1` (round half to even on the decimal digit); every value the
completeness computation feeds to it is a multiple of `6.25`, which is exactly
representable in binary floating point, so the rational model agrees with the
float computation.
-/

/-- Lower-case a string character-wise (Python `str.lower` on ASCII data).
Implemented over the character list so that concrete evaluations reduce in
the kernel. -/
def strLower (s : String) : String := String.mk (s.data.map Char.toLower)

/-- Trim leading and trailing whitespace (Python `str.strip()` on ASCII
data), over the character list. -/
def strTrim (s : String) : String :=
  String.mk
    (((s.data.dropWhile Char.isWhitespace).reverse.dropWhile
        Char.isWhitespace).reverse)

/-- Whether `needle` occurs as a contiguous sublist of `hay`. -/
def listContainsSub (hay needle : List Char) : Bool :=
  match hay with
  | [] => needle.isEmpty
  | _ :: t => needle.isPrefixOf hay || listContainsSub t needle

/-- Python `needle in haystack` substring test. -/
def containsSub (haystack needle : String) : Bool :=
  listContainsSub haystack.data needle.data

/-- Python truthiness of an optional string: `None` and `""` are falsy. -/
def optStrTruthy : Option String → Bool
  | none => false
  | some s => s ≠ ""

/-- The placeholder list of `scratchpad.py`: `["unknown", "none", ""]`. -/
def placeholderStrings : List String := ["unknown", "none", ""]

/-- `value is None or str(value).lower() in ["unknown", "none", ""]`
(the rejection test at the top of `ScratchpadManager.add_field`). -/
def isPlaceholder : Option String → Bool
  | none => true
  | some s => placeholderStrings.contains (strLower s)

/-- `v.value and str(v.value).lower() not in ["unknown", "none", ""]`:
the test deciding whether an entry counts as filled in
`_update_completeness`. -/
def filledValue : Option String → Bool
  | none => false
  | some s => s ≠ "" && !placeholderStrings.contains (strLower s)

/-- One scraped field with metadata (`FieldEntry` of `booking/scratchpad.py`).
`conversation_id`-independent; timestamps are `Option Nat` ticks. -/
structure FieldEntry where
  value : Option String := none
  source : Option String := none
  turn : Option Int := none
  confidence : ℚ := 1
  extraction_method : Option String := none
  timestamp : Option Nat := none
  edit_source : Option String := none
  previous_value : Option String := none
  edited_at : Option Nat := none
  deriving Repr, DecidableEq

/-- A scratchpad section: a Python dict field-name → `FieldEntry`,
modelled as an association list with unique keys. -/
abbrev SectionDict := List (String × FieldEntry)

/-- Python dict lookup `d.get(k)`. -/
def dictGet (k : String) : SectionDict → Option FieldEntry
  | [] => none
  | (k', v) :: rest => if k' = k then some v else dictGet k rest

/-- Python dict assignment `d[k] = v`: replace in place, else append. -/
def dictInsert (k : String) (v : FieldEntry) : SectionDict → SectionDict
  | [] => [(k, v)]
  | (k', v') :: rest =>
      if k' = k then (k, v) :: rest else (k', v') :: dictInsert k v rest

/-- Python dict deletion `del d[k]` (no-op when the key is absent, the caller
checks membership first). -/
def dictErase (k : String) : SectionDict → SectionDict
  | [] => []
  | (k', v') :: rest =>
      if k' = k then rest else (k', v') :: dictErase k rest

/-- The metadata dict of `ScratchpadForm` (only the keys the embedded code
reads or writes; `conversation_id` / `created_at` are never consulted).
A key that was never written is `none` — `_update_completeness` is what first
writes `is_bookable` and `filled_required_fields`, and nothing in the
repository ever writes a `"turns"` key. -/
structure ScratchMetadata where
  data_completeness : ℚ := 0
  is_bookable : Option Bool := none
  filled_required_fields : Option Nat := none
  turns : Option (List String) := none
  deriving Repr, DecidableEq

/-- Three-section scratchpad (`ScratchpadForm` of `booking/scratchpad.py`). -/
structure ScratchpadForm where
  customer : SectionDict := []
  vehicle : SectionDict := []
  appointment : SectionDict := []
  metadata : ScratchMetadata := {}
  deriving Repr, DecidableEq

/-- A freshly constructed scratchpad (`ScratchpadManager.__init__`):
empty sections, `data_completeness = 0.0`, no other metadata keys. -/
def freshForm : ScratchpadForm := {}

/-- `getattr(self.form, section)`. -/
def ScratchpadForm.getSection (f : ScratchpadForm) (sect : String) : SectionDict :=
  if sect = "customer" then f.customer
  else if sect = "vehicle" then f.vehicle
  else f.appointment

/-- Write back one section of the form. -/
def ScratchpadForm.setSection (f : ScratchpadForm) (sect : String)
    (d : SectionDict) : ScratchpadForm :=
  if sect = "customer" then { f with customer := d }
  else if sect = "vehicle" then { f with vehicle := d }
  else { f with appointment := d }

/-- `config.py`: `TOTAL_POSSIBLE_FIELDS = 16`. -/
def TOTAL_POSSIBLE_FIELDS : Nat := 16

/-- `config.py`: `REQUIRED_FIELDS_FOR_BOOKING = 12`. -/
def REQUIRED_FIELDS_FOR_BOOKING : Nat := 12

/-- `config.py`: `CONFIRMATION_AUTO_CONFIRM_ATTEMPTS = 3`. -/
def CONFIRMATION_AUTO_CONFIRM_ATTEMPTS : Nat := 3

/-- `config.py`: `CONFIRMATION_MODE = "CHAT"`. -/
def CONFIRMATION_MODE : String := "CHAT"

/-- The `required_fields` list assembled inside `_update_completeness`:
three customer names, three vehicle names, one appointment name. -/
def requiredFields : List String :=
  ["first_name", "last_name", "phone", "brand", "model", "plate", "date"]

/-- Round half to even to the nearest integer, the rounding CPython's
`round` applies to an exactly representable float. -/
def pyRoundHalfEven (q : ℚ) : ℤ :=
  if q - (⌊q⌋ : ℚ) < 1 / 2 then ⌊q⌋
  else if 1 / 2 < q - (⌊q⌋ : ℚ) then ⌊q⌋ + 1
  else if ⌊q⌋ % 2 = 0 then ⌊q⌋ else ⌊q⌋ + 1

/-- CPython `round(x, 1)` on an exactly representable float, as an exact
rational: round `10 * x` half to even, divide by ten. -/
def pyRound1 (q : ℚ) : ℚ := (pyRoundHalfEven (q * 10) : ℚ) / 10

/-- Count of filled (truthy, non-placeholder) entries of one section. -/
def countFilledSection (d : SectionDict) : Nat :=
  d.countP fun kv => filledValue kv.2.value

/-- `filled` of `_update_completeness`: filled entries across all
three sections. -/
def countFilled (f : ScratchpadForm) : Nat :=
  countFilledSection f.customer + countFilledSection f.vehicle +
    countFilledSection f.appointment

/-- Whether a required field name is present in a section with a truthy,
non-placeholder value (the inner test of the `filled_required` loop). -/
def requiredPresent (d : SectionDict) (name : String) : Bool :=
  match dictGet name d with
  | some e => filledValue e.value
  | none => false

/-- Required names filled within one section.  The source iterates the full
`required_fields` list for each section, so a name occurring in the wrong
section is counted there as well. -/
def countRequiredSection (d : SectionDict) : Nat :=
  requiredFields.countP fun name => requiredPresent d name

/-- `filled_required` of `_update_completeness`. -/
def countRequired (f : ScratchpadForm) : Nat :=
  countRequiredSection f.customer + countRequiredSection f.vehicle +
    countRequiredSection f.appointment

/-- `ScratchpadManager._update_completeness`: recompute
`data_completeness` (capped at 100), `is_bookable`
(`filled_required >= REQUIRED_FIELDS_FOR_BOOKING - 1`) and
`filled_required_fields`. -/
def updateCompleteness (f : ScratchpadForm) : ScratchpadForm :=
  let filled := countFilled f
  let filledRequired := countRequired f
  let pct := pyRound1 ((filled : ℚ) / (TOTAL_POSSIBLE_FIELDS : ℚ) * 100)
  let pct := if 100 < pct then 100 else pct
  let isBookable := decide (REQUIRED_FIELDS_FOR_BOOKING - 1 ≤ filledRequired)
  { f with metadata :=
      { f.metadata with
          data_completeness := pct
          is_bookable := some isBookable
          filled_required_fields := some filledRequired } }

/-- The `FieldEntry` literal `add_field` writes on acceptance. -/
def newFieldEntry (value : Option String) (source : String) (turn : Int)
    (confidence : ℚ) (extractionMethod editSource : String) (now : Nat)
    (prev : Option String) : FieldEntry :=
  { value := value
    source := some source
    turn := some turn
    confidence := confidence
    extraction_method := some extractionMethod
    timestamp := some now
    edit_source := some editSource
    previous_value := prev
    edited_at := some now }

/-- The conflict-resolution decision of `add_field`: `none` means reject,
`some prev` means accept with `prev` as the stashed `previous_value`. -/
def turnDecision (existing : Option FieldEntry) (turn : Int) : Option (Option String) :=
  match existing with
  | some e =>
      match e.turn with
      | some t => if turn ≤ t then none else some e.value
      | none => some none
  | none => some none

/-- `ScratchpadManager.add_field`: validity gate, turn-based conflict
resolution, entry write, completeness refresh.  Returns the updated form and
the Boolean result. -/
def addField (f : ScratchpadForm) (sect fieldName : String) (value : Option String)
    (source : String) (turn : Int) (confidence : ℚ) (extractionMethod : String)
    (editSource : String) (now : Nat) : ScratchpadForm × Bool :=
  if !(["customer", "vehicle", "appointment"].contains sect) then (f, false)
  else if isPlaceholder value then (f, false)
  else
    match turnDecision (dictGet fieldName (f.getSection sect)) turn with
    | none => (f, false)
    | some prev =>
        (updateCompleteness
          (f.setSection sect
            (dictInsert fieldName
              (newFieldEntry value source turn confidence extractionMethod
                editSource now prev)
              (f.getSection sect))), true)

/-- `ScratchpadManager.clear_all`: wipe the three sections and reset
`data_completeness` to `0.0` (other metadata keys untouched). -/
def clearAll (f : ScratchpadForm) : ScratchpadForm :=
  { f with customer := [], vehicle := [], appointment := [],
           metadata := { f.metadata with data_completeness := 0 } }

/-- `ScratchpadManager.update_field`: direct value overwrite (bypasses the
turn check), then completeness refresh. -/
def updateField (f : ScratchpadForm) (sect fieldName : String)
    (newValue : Option String) : ScratchpadForm × Bool :=
  if !(["customer", "vehicle", "appointment"].contains sect) then (f, false)
  else
    match dictGet fieldName (f.getSection sect) with
    | none => (f, false)
    | some e =>
        (updateCompleteness
          (f.setSection sect
            (dictInsert fieldName { e with value := newValue } (f.getSection sect))),
         true)

/-- `ScratchpadManager.delete_field`. -/
def deleteField (f : ScratchpadForm) (sect fieldName : String) :
    ScratchpadForm × Bool :=
  let d := f.getSection sect
  match dictGet fieldName d with
  | none => (f, false)
  | some _ => (updateCompleteness (f.setSection sect (dictErase fieldName d)), true)

/-- `ScratchpadManager.get_completeness`. -/
def getCompleteness (f : ScratchpadForm) : ℚ := f.metadata.data_completeness

/-- Conversation states relevant to the embedded code
(`ConversationState` of `config.py`; the states no embedded branch reads are
collapsed into `other`). -/
inductive ConversationState where
  | greeting
  | nameCollection
  | vehicleDetails
  | dateSelection
  | confirmation
  | completed
  | cancelled
  | other
  deriving Repr, DecidableEq

/-- Modelled from the spec: the metadata of `ConversationContext`
(§3 of the spec; `conversation_manager.py` is not under `src/`).  Only the
keys the embedded code of `message_processor.py`,
`booking_flow_integration.py` and `main.py` reads or writes are kept;
`metadata.get('confirmation_attempts', 0)` makes the attempts counter default
to `0`. -/
structure ContextMetadata where
  service_request_id : Option String := none
  confirmation_attempts : Nat := 0
  booking_completed : Bool := false
  deriving Repr, DecidableEq

/-- Result of one finalization attempt: the updated conversation metadata and
scratchpad, the `service_request_id` reported to the caller, whether a new
`ServiceRequest` was built, and how many snapshots were persisted by
`dump_service_request`. -/
structure FinalizeResult where
  ctx : ContextMetadata
  scr : ScratchpadForm
  serviceRequestId : Option String
  createdRequest : Bool
  dumpCount : Nat
  deriving Repr, DecidableEq

/-- The CHAT-mode finalization of `MessageProcessor.process_message`
(the booking branch of step 8.5, lines 371–398, composed with the dump/clear
block, lines 465–491).  `ServiceRequestBuilder.build` is modelled from the
spec (§4.5 steps 2–3: building a snapshot and obtaining a new unique id;
`booking/service_request.py` is not under `src/`) as the `newId` parameter,
assumed non-empty like every generated `SR-…` id.  `dump_service_request`
succeeding or raising is `dumpOk`; the `except` clause of both call sites
swallows the exception and control continues. -/
def finalizeChat (ctx : ContextMetadata) (scr : ScratchpadForm) (newId : String)
    (dumpOk : Bool) : FinalizeResult :=
  let existing := ctx.service_request_id
  let pct := getCompleteness scr
  if optStrTruthy existing && pct = 0 then
    -- booking already created and scratchpad already cleared: reuse the id
    { ctx := ctx, scr := scr, serviceRequestId := existing,
      createdRequest := false, dumpCount := 0 }
  else
    let ctx :=
      { ctx with service_request_id := some newId, confirmation_attempts := 0,
                 booking_completed := true }
    -- dump/clear block: runs because service_request_id is set and the mode is CHAT
    if CONFIRMATION_MODE = "CHAT" then
      if getCompleteness scr = 0 then
        { ctx := ctx, scr := scr, serviceRequestId := some newId,
          createdRequest := true, dumpCount := 0 }
      else
        { ctx := ctx, scr := clearAll scr, serviceRequestId := some newId,
          createdRequest := true, dumpCount := if dumpOk then 1 else 0 }
    else
      { ctx := ctx, scr := scr, serviceRequestId := some newId,
        createdRequest := true, dumpCount := 0 }

/-- The CONFIRM branch of `BookingFlowManager.process_for_booking`
(lines 94–118): build a `ServiceRequest` unconditionally, store its id into
the conversation metadata, move to COMPLETED.  No idempotency check guards
this branch. -/
def finalizeBookingConfirm (ctx : ContextMetadata) (scr : ScratchpadForm)
    (newId : String) : FinalizeResult :=
  { ctx := { ctx with service_request_id := some newId },
    scr := scr, serviceRequestId := some newId, createdRequest := true,
    dumpCount := 0 }

/-- `confirm_keywords` of `process_message` step 8.5. -/
def confirmKeywords : List String :=
  ["yes", "confirm", "ok", "okay", "book", "proceed", "finalize", "haan", "haa"]

/-- `edit_keywords` of `process_message` step 8.5. -/
def editKeywords : List String := ["edit", "change", "update", "correct", "modify"]

/-- `cancel_keywords` of `process_message` step 8.5. -/
def cancelKeywords : List String := ["cancel", "no", "abort"]

/-- `any(kw in user_message.lower() for kw in kws)`. -/
def anyKeyword (userMessage : String) (kws : List String) : Bool :=
  kws.any fun kw => containsSub (strLower userMessage) kw

/-- The confirmation flow of `process_message` step 8.5 (lines 330–406)
composed with the dump/clear block: executed when the stored state is
CONFIRMATION and all confirmation-required fields are present.  The DSPy
confirmation-intent detector is an external LLM call; its Boolean verdict
(or, when it raises, the keyword fallback the `except` clause substitutes) is
the `dspyConfirm` parameter. -/
def confirmationFlowStep (ctx : ContextMetadata) (scr : ScratchpadForm)
    (userMessage : String) (dspyConfirm : Bool) (inConfirmation hasAllRequired : Bool)
    (newId : String) (dumpOk : Bool) : FinalizeResult :=
  if inConfirmation && hasAllRequired then
    let userConfirmed := anyKeyword userMessage confirmKeywords || dspyConfirm
    let userWantsEdit := anyKeyword userMessage editKeywords
    let userWantsCancel := anyKeyword userMessage cancelKeywords
    let attempts := ctx.confirmation_attempts + 1
    let ctx := { ctx with confirmation_attempts := attempts }
    let autoConfirmed := CONFIRMATION_AUTO_CONFIRM_ATTEMPTS ≤ attempts
    if (autoConfirmed && !userWantsEdit && !userWantsCancel) || userConfirmed then
      finalizeChat ctx scr newId dumpOk
    else if userWantsEdit || userWantsCancel then
      { ctx := { ctx with confirmation_attempts := 0 }, scr := scr,
        serviceRequestId := none, createdRequest := false, dumpCount := 0 }
    else
      { ctx := ctx, scr := scr, serviceRequestId := none,
        createdRequest := false, dumpCount := 0 }
  else
    { ctx := ctx, scr := scr, serviceRequestId := none,
      createdRequest := false, dumpCount := 0 }

/-- The field-name → (section, scratchpad field) mapping of
`process_message` step 8.4 (lines 286–313): customer names pass through,
vehicle and appointment names are renamed, anything else is skipped. -/
def orchestratorMap (fieldName : String) : Option (String × String) :=
  if ["first_name", "last_name", "full_name", "phone", "address"].contains fieldName then
    some ("customer", fieldName)
  else if ["vehicle_brand", "vehicle_model", "vehicle_plate", "vehicle_type"].contains fieldName then
    some ("vehicle",
      if fieldName = "vehicle_brand" then "brand"
      else if fieldName = "vehicle_model" then "model"
      else if fieldName = "vehicle_plate" then "plate"
      else "vehicle_type")
  else if ["appointment_date", "service_type", "service_tier", "time_slot", "notes"].contains fieldName then
    some ("appointment",
      if fieldName = "appointment_date" then "date" else fieldName)
  else none

/-- The data-population loop of `process_message` step 8.4: every collected
`(field_name, value)` with a non-`None` value is routed through
`orchestratorMap` into `add_field(..., source="collection", turn=0,
confidence=1.0, extraction_method="collected")`. -/
def populateCollected (f : ScratchpadForm) (data : List (String × Option String)) :
    ScratchpadForm :=
  data.foldl
    (fun acc kv =>
      match kv.2 with
      | none => acc
      | some _ =>
          match orchestratorMap kv.1 with
          | none => acc
          | some (sect, fld) =>
              (addField acc sect fld kv.2 "collection" 0 1 "collected"
                "initial_entry" 0).1)
    f

/-- `ScratchpadCoordinator.update_from_extraction`: the section is chosen by
the conversation state; in the vehicle and date branches every field name not
in the small rename map is forwarded unchanged into that section. -/
def updateFromExtraction (f : ScratchpadForm) (state : ConversationState)
    (fieldName : String) (value : Option String) : ScratchpadForm :=
  match state with
  | ConversationState.nameCollection =>
      if ["first_name", "last_name", "full_name"].contains fieldName then
        (addField f "customer" fieldName value "extraction" 0 1 "user"
          "initial_entry" 0).1
      else f
  | ConversationState.vehicleDetails =>
      let fld :=
        if fieldName = "vehicle_brand" then "brand"
        else if fieldName = "vehicle_model" then "model"
        else if fieldName = "vehicle_plate" then "plate"
        else fieldName
      (addField f "vehicle" fld value "extraction" 0 1 "user" "initial_entry" 0).1
  | ConversationState.dateSelection =>
      let fld := if fieldName = "appointment_date" then "date" else fieldName
      (addField f "appointment" fld value "extraction" 0 1 "user"
        "initial_entry" 0).1
  | _ => f

/-- `section_map` of `BookingFlowManager._add_extracted_data`. -/
def bookingSectionMap (key : String) : Option (String × String) :=
  if key = "first_name" then some ("customer", "first_name")
  else if key = "last_name" then some ("customer", "last_name")
  else if key = "phone" then some ("customer", "phone")
  else if key = "email" then some ("customer", "email")
  else if key = "vehicle_brand" then some ("vehicle", "brand")
  else if key = "vehicle_model" then some ("vehicle", "model")
  else if key = "appointment_date" then some ("appointment", "date")
  else if key = "service_type" then some ("appointment", "service_type")
  else none

/-- The turn number `_add_extracted_data` computes:
`len(self.scratchpad.form.metadata.get("turns", [])) + 1`. -/
def bookingTurn (md : ScratchMetadata) : Int :=
  ((md.turns.getD []).length : Int) + 1

/-- `BookingFlowManager._add_extracted_data`: route each non-`None` extracted
value through `section_map` into
`add_field(..., source="direct_extraction", turn=turn, confidence=0.85)`. -/
def bookingAddExtracted (f : ScratchpadForm) (data : List (String × Option String)) :
    ScratchpadForm :=
  let turn := bookingTurn f.metadata
  data.foldl
    (fun acc kv =>
      match kv.2 with
      | none => acc
      | some _ =>
          match bookingSectionMap kv.1 with
          | none => acc
          | some (sect, fld) =>
              (addField acc sect fld kv.2 "direct_extraction" turn (85 / 100)
                "user" "initial_entry" 0).1)
    f

/-- `config.py`: `GREETING_STOPWORDS` (a Python set; membership only, so the
duplicate `"ok"` of the literal is harmless). -/
def GREETING_STOPWORDS : List String :=
  ["haan", "haji", "han", "haa", "ji", "haanji", "hello ji", "nomoshkar", "namaste",
   "hello", "hi", "hey", "yes", "yeah", "yep", "ok", "okay", "sure", "fine",
   "ok", "okey", "yo", "yup", "yaar", "dost", "sirji",
   "shukriya", "shukriya ji", "thank you", "thanks", "thankyou", "thank", "thx",
   "dhanyavaad", "bahut acha", "bahut achha", "achha", "acha", "great", "perfect",
   "done", "good", "nice", "wonderful", "excellent", "super", "awesome",
   "bye", "goodbye", "tata", "cheerio", "see you", "later"]

/-- Drop leading and trailing double or single quotes
(Python `str.strip` over the two quote characters). -/
def stripQuoteChars (s : String) : String :=
  let isQuote : Char → Bool := fun c => c = '"' || c = '\''
  let cs := s.data.dropWhile isQuote
  String.mk ((cs.reverse.dropWhile isQuote).reverse)

/-- The sanitization of `scan_for_name`:
`str(result.first_name).strip().strip('"\'')`. -/
def sanitizeName (s : String) : String := stripQuoteChars (strTrim s)

/-- Modelled from the spec: `models.VehicleBrandEnum` (`models.py` is not
under `src/`).  §4.4 speaks of "a known vehicle-brand token"; source comments
name "Mahindra" and "Honda City" as brands, so a representative list of
Indian-market brand tokens stands in.  Every theorem quantifying over brand
lists holds for any list; only concrete evaluations use this one. -/
def specVehicleBrands : List String :=
  ["Honda", "Toyota", "Maruti", "Mahindra", "Hyundai", "Tata", "Kia", "Ford",
   "Renault", "Skoda", "Volkswagen", "BMW", "Audi", "Mercedes"]

/-- `RetroactiveScanner._is_vehicle_brand`: empty or all-whitespace text is
not a brand; otherwise the lowered, trimmed text matches a brand when either
one contains the other. -/
def isVehicleBrand (brands : List String) (text : String) : Bool :=
  if text = "" || strTrim text = "" then false
  else
    let tl := strLower (strTrim text)
    brands.any fun b => containsSub tl (strLower b) || containsSub (strLower b) tl

/-- The per-message loop of `RetroactiveScanner.scan_for_name`.  The DSPy
`NameExtractor` is an external LLM call, so the scan over the bounded window
is modelled as the list of raw `(first_name, last_name)` extractor outputs,
most recent message first; the loop sanitizes each candidate, applies the
vehicle-brand and stopword filters, and returns the first surviving name. -/
def scanForName (brands : List String) :
    List (String × String) → Option (String × String)
  | [] => none
  | (f, l) :: rest =>
      if isVehicleBrand brands (sanitizeName f)
          || isVehicleBrand brands (sanitizeName l) then
        scanForName brands rest
      else if sanitizeName f ≠ ""
          && GREETING_STOPWORDS.contains (strLower (sanitizeName f)) then
        scanForName brands rest
      else if sanitizeName f ≠ ""
          && !(["none", "n/a", "unknown"].contains (strLower (sanitizeName f))) then
        some (sanitizeName f, sanitizeName l)
      else
        scanForName brands rest

/-- The completeness formula of the spec:
`min(100, round(filled / TOTAL_POSSIBLE_FIELDS * 100, 1))`. -/
def completenessFormula (f : ScratchpadForm) : ℚ :=
  min 100 (pyRound1 ((countFilled f : ℚ) / (TOTAL_POSSIBLE_FIELDS : ℚ) * 100))

/-- The stored completeness agrees with the formula on the current entries —
holds for a fresh scratchpad and is re-established by every mutation. -/
def wellFormedPct (f : ScratchpadForm) : Prop :=
  f.metadata.data_completeness = completenessFormula f

/-- The arguments of one `add_field` call. -/
structure AddCall where
  sect : String
  fieldName : String
  value : Option String
  source : String
  turn : Int
  confidence : ℚ
  extractionMethod : String
  editSource : String
  now : Nat

/-- Apply one `add_field` call, keeping the resulting form. -/
def applyAddCall (f : ScratchpadForm) (c : AddCall) : ScratchpadForm :=
  (addField f c.sect c.fieldName c.value c.source c.turn c.confidence
    c.extractionMethod c.editSource c.now).1

/-- Field names the embedded write paths can place in the customer section. -/
def allowedCustomerFields : List String :=
  ["first_name", "last_name", "full_name", "phone", "address", "email"]

/-- Field names the embedded write paths can place in the vehicle section. -/
def allowedVehicleFields : List String :=
  ["brand", "model", "plate", "vehicle_type"]

/-- Field names the embedded write paths can place in the appointment
section. -/
def allowedAppointmentFields : List String :=
  ["date", "service_type", "service_tier", "time_slot", "notes"]

/-- Section discipline: every key of a section is one of the names the
fixed field-to-section maps can route there. -/
def sectionDiscipline (f : ScratchpadForm) : Prop :=
  (∀ kv ∈ f.customer, kv.1 ∈ allowedCustomerFields) ∧
    (∀ kv ∈ f.vehicle, kv.1 ∈ allowedVehicleFields) ∧
    (∀ kv ∈ f.appointment, kv.1 ∈ allowedAppointmentFields)

/-- One write arriving through the fixed field-to-section maps: the step 8.4
data-population loop of `process_message`, or
`BookingFlowManager._add_extracted_data`. -/
inductive CollectOp where
  | collected (fieldName : String) (value : Option String)
  | bookingExtracted (key : String) (value : Option String)

/-- Apply one such write. -/
def applyCollectOp (f : ScratchpadForm) : CollectOp → ScratchpadForm
  | CollectOp.collected k v => populateCollected f [(k, v)]
  | CollectOp.bookingExtracted k v => bookingAddExtracted f [(k, v)]

theorem pyRoundHalfEven_bounds (q : ℚ) :
    ⌊q⌋ ≤ pyRoundHalfEven q ∧ pyRoundHalfEven q ≤ ⌊q⌋ + 1 := by
  unfold pyRoundHalfEven
  split_ifs <;> omega

theorem pyRoundHalfEven_mono {q r : ℚ} (h : q ≤ r) :
    pyRoundHalfEven q ≤ pyRoundHalfEven r := by
  have hf : ⌊q⌋ ≤ ⌊r⌋ := Int.floor_le_floor h
  rcases eq_or_lt_of_le hf with heq | hlt
  · have hfr : q - (⌊q⌋ : ℚ) ≤ r - (⌊r⌋ : ℚ) := by
      rw [← heq]; linarith
    unfold pyRoundHalfEven
    rw [heq]
    rw [heq] at hfr
    split_ifs <;> first | omega | linarith
  · unfold pyRoundHalfEven
    split_ifs <;> omega

theorem pyRoundHalfEven_nonneg {q : ℚ} (h : 0 ≤ q) : 0 ≤ pyRoundHalfEven q := by
  have hq : (0 : ℤ) ≤ ⌊q⌋ := Int.floor_nonneg.mpr h
  unfold pyRoundHalfEven
  split_ifs <;> omega

theorem pyRound1_mono {q r : ℚ} (h : q ≤ r) : pyRound1 q ≤ pyRound1 r := by
  unfold pyRound1
  have h10 : q * 10 ≤ r * 10 := by linarith
  have := pyRoundHalfEven_mono h10
  have hc : ((pyRoundHalfEven (q * 10) : ℚ)) ≤ ((pyRoundHalfEven (r * 10) : ℚ)) := by
    exact_mod_cast this
  linarith

theorem pyRound1_nonneg {q : ℚ} (h : 0 ≤ q) : 0 ≤ pyRound1 q := by
  unfold pyRound1
  have h10 : (0 : ℚ) ≤ q * 10 := by linarith
  have := pyRoundHalfEven_nonneg h10
  have hc : (0 : ℚ) ≤ ((pyRoundHalfEven (q * 10) : ℚ)) := by exact_mod_cast this
  linarith

theorem dictGet_dictInsert_self (k : String) (v : FieldEntry) (d : SectionDict) :
    dictGet k (dictInsert k v d) = some v := by
  induction d with
  | nil => simp [dictInsert, dictGet]
  | cons hd tl ih =>
      obtain ⟨k', v'⟩ := hd
      by_cases h : k' = k
      · simp [dictInsert, dictGet, h]
      · simp [dictInsert, dictGet, h, ih]

theorem dictGet_mem {k : String} {v : FieldEntry} {d : SectionDict}
    (h : dictGet k d = some v) : (k, v) ∈ d := by
  induction d with
  | nil => simp [dictGet] at h
  | cons hd tl ih =>
      obtain ⟨k', v'⟩ := hd
      by_cases hk : k' = k
      · subst hk
        simp [dictGet] at h
        simp [h]
      · simp [dictGet, hk] at h
        exact List.mem_cons_of_mem _ (ih h)

theorem mem_dictInsert {k k' : String} {v v' : FieldEntry} {d : SectionDict}
    (h : (k', v') ∈ dictInsert k v d) : (k', v') = (k, v) ∨ (k', v') ∈ d := by
  induction d with
  | nil => simp [dictInsert] at h; simp [h]
  | cons hd tl ih =>
      obtain ⟨k₀, v₀⟩ := hd
      by_cases hk : k₀ = k
      · subst hk
        simp [dictInsert] at h
        rcases h with h | h
        · left; simp [h]
        · right; exact List.mem_cons_of_mem _ h
      · simp [dictInsert, hk] at h
        rcases h with h | h
        · right; simp [h]
        · rcases ih h with h' | h'
          · left; exact h'
          · right; exact List.mem_cons_of_mem _ h'

theorem countFilledSection_dictInsert_ge {k : String} {v : FieldEntry}
    (d : SectionDict) (hv : filledValue v.value = true) :
    countFilledSection d ≤ countFilledSection (dictInsert k v d) := by
  induction d with
  | nil => simp [dictInsert, countFilledSection, List.countP_cons, hv]
  | cons hd tl ih =>
      obtain ⟨k', v'⟩ := hd
      by_cases h : k' = k
      · simp [dictInsert, countFilledSection, List.countP_cons, h, hv] at *
        split_ifs <;> omega
      · simp [dictInsert, countFilledSection, List.countP_cons, h] at *
        omega

/-- A section name accepted by the `section not in [...]` gate. -/
def validSection (sect : String) : Prop :=
  sect = "customer" ∨ sect = "vehicle" ∨ sect = "appointment"

theorem contains_of_validSection {sect : String} (h : validSection sect) :
    (["customer", "vehicle", "appointment"].contains sect) = true := by
  rcases h with h | h | h <;> subst h <;> rfl

theorem getSection_setSection {sect : String} (f : ScratchpadForm)
    (hs : validSection sect) (d : SectionDict) :
    (f.setSection sect d).getSection sect = d := by
  rcases hs with h | h | h <;> subst h <;>
    simp [ScratchpadForm.getSection, ScratchpadForm.setSection]

theorem setSection_metadata (f : ScratchpadForm) (sect : String) (d : SectionDict) :
    (f.setSection sect d).metadata = f.metadata := by
  unfold ScratchpadForm.setSection
  split_ifs <;> rfl

theorem updateCompleteness_customer (f : ScratchpadForm) :
    (updateCompleteness f).customer = f.customer := rfl

theorem updateCompleteness_vehicle (f : ScratchpadForm) :
    (updateCompleteness f).vehicle = f.vehicle := rfl

theorem updateCompleteness_appointment (f : ScratchpadForm) :
    (updateCompleteness f).appointment = f.appointment := rfl

theorem countFilled_updateCompleteness (f : ScratchpadForm) :
    countFilled (updateCompleteness f) = countFilled f := rfl

theorem updateCompleteness_pct (f : ScratchpadForm) :
    (updateCompleteness f).metadata.data_completeness =
      min 100 (pyRound1 ((countFilled f : ℚ) / (TOTAL_POSSIBLE_FIELDS : ℚ) * 100)) := by
  show (if 100 < pyRound1 ((countFilled f : ℚ) / (TOTAL_POSSIBLE_FIELDS : ℚ) * 100)
        then (100 : ℚ)
        else pyRound1 ((countFilled f : ℚ) / (TOTAL_POSSIBLE_FIELDS : ℚ) * 100)) = _
  by_cases h : 100 < pyRound1 ((countFilled f : ℚ) / (TOTAL_POSSIBLE_FIELDS : ℚ) * 100)
  · simp [h, min_eq_left h.le]
  · push_neg at h
    simp [h.not_lt, min_eq_right h]

theorem updateCompleteness_isBookable (f : ScratchpadForm) :
    (updateCompleteness f).metadata.is_bookable =
      some (decide (REQUIRED_FIELDS_FOR_BOOKING - 1 ≤ countRequired f)) := rfl

theorem countFilled_setSection_insert {sect : String} {f : ScratchpadForm}
    (hs : validSection sect) {k : String} {v : FieldEntry}
    (hv : filledValue v.value = true) :
    countFilled f ≤
      countFilled (f.setSection sect (dictInsert k v (f.getSection sect))) := by
  rcases hs with h | h | h <;> subst h <;>
    simp only [countFilled, ScratchpadForm.getSection, ScratchpadForm.setSection] <;>
    simp <;>
    [have hle := countFilledSection_dictInsert_ge (k := k) (v := v) f.customer hv;
     have hle := countFilledSection_dictInsert_ge (k := k) (v := v) f.vehicle hv;
     have hle := countFilledSection_dictInsert_ge (k := k) (v := v) f.appointment hv] <;>
    omega

theorem addField_of_turnDecision_none (f : ScratchpadForm) (sect fieldName : String)
    (value : Option String) (src : String) (turn : Int) (conf : ℚ) (m es : String)
    (now : Nat) (hs : validSection sect) (hv : isPlaceholder value = false)
    (hd : turnDecision (dictGet fieldName (f.getSection sect)) turn = none) :
    addField f sect fieldName value src turn conf m es now = (f, false) := by
  unfold addField
  rw [contains_of_validSection hs]
  simp [hv, hd]

theorem addField_of_turnDecision_some (f : ScratchpadForm) (sect fieldName : String)
    (value : Option String) (src : String) (turn : Int) (conf : ℚ) (m es : String)
    (now : Nat) (prev : Option String) (hs : validSection sect)
    (hv : isPlaceholder value = false)
    (hd : turnDecision (dictGet fieldName (f.getSection sect)) turn = some prev) :
    addField f sect fieldName value src turn conf m es now =
      (updateCompleteness
        (f.setSection sect
          (dictInsert fieldName (newFieldEntry value src turn conf m es now prev)
            (f.getSection sect))), true) := by
  unfold addField
  rw [contains_of_validSection hs]
  simp [hv, hd]

theorem getSection_updateCompleteness (f : ScratchpadForm) (sect : String) :
    (updateCompleteness f).getSection sect = f.getSection sect := by
  unfold ScratchpadForm.getSection
  split_ifs <;> rfl

/-- C3: with a valid section and a non-placeholder value, a write against an
existing entry carrying a recorded turn is accepted iff the new turn is
strictly greater; an equal-or-earlier turn returns `False` and leaves the form
unchanged.  Consequently two writes to the same fresh field at turns
`t1 < t2` leave the `t2` value stored in either call order. -/
theorem add_field_turn_ordering :
    (∀ (f : ScratchpadForm) (sect fieldName : String) (value : Option String)
        (src : String) (turn : Int) (conf : ℚ) (m es : String) (now : Nat)
        (e : FieldEntry) (t : Int),
        validSection sect → isPlaceholder value = false →
        dictGet fieldName (f.getSection sect) = some e → e.turn = some t →
        (((addField f sect fieldName value src turn conf m es now).2 = true) ↔ t < turn)
          ∧ (turn ≤ t →
              addField f sect fieldName value src turn conf m es now = (f, false)))
    ∧ (∀ (f : ScratchpadForm) (sect fieldName : String) (v1 v2 : Option String)
        (src1 src2 : String) (t1 t2 : Int) (c1 c2 : ℚ) (m1 m2 es1 es2 : String)
        (n1 n2 : Nat),
        validSection sect → isPlaceholder v1 = false → isPlaceholder v2 = false →
        dictGet fieldName (f.getSection sect) = none → t1 < t2 →
        ((dictGet fieldName
            ((addField (addField f sect fieldName v1 src1 t1 c1 m1 es1 n1).1
                sect fieldName v2 src2 t2 c2 m2 es2 n2).1.getSection sect)).map
            FieldEntry.value = some v2
          ∧ (dictGet fieldName
            ((addField (addField f sect fieldName v2 src2 t2 c2 m2 es2 n2).1
                sect fieldName v1 src1 t1 c1 m1 es1 n1).1.getSection sect)).map
            FieldEntry.value = some v2)) := by
  constructor
  · intro f sect fieldName value src turn conf m es now e t hs hv he ht
    by_cases hle : turn ≤ t
    · have hd : turnDecision (dictGet fieldName (f.getSection sect)) turn = none := by
        rw [he]; simp [turnDecision, ht, hle]
      have := addField_of_turnDecision_none f sect fieldName value src turn conf
        m es now hs hv hd
      constructor
      · rw [this]; simp; omega
      · intro _; exact this
    · push_neg at hle
      have hd : turnDecision (dictGet fieldName (f.getSection sect)) turn =
          some e.value := by
        rw [he]; simp [turnDecision, ht]; omega
      have := addField_of_turnDecision_some f sect fieldName value src turn conf
        m es now e.value hs hv hd
      constructor
      · rw [this]; simpa using hle
      · intro hcontra; omega
  · intro f sect fieldName v1 v2 src1 src2 t1 t2 c1 c2 m1 m2 es1 es2 n1 n2
      hs hv1 hv2 hnone hlt
    have hfresh1 : turnDecision (dictGet fieldName (f.getSection sect)) t1 =
        some none := by rw [hnone]; rfl
    have hfresh2 : turnDecision (dictGet fieldName (f.getSection sect)) t2 =
        some none := by rw [hnone]; rfl
    constructor
    · -- order t1 then t2
      have h1 := addField_of_turnDecision_some f sect fieldName v1 src1 t1 c1
        m1 es1 n1 none hs hv1 hfresh1
      set e1 := newFieldEntry v1 src1 t1 c1 m1 es1 n1 none with he1
      have hget1 :
          dictGet fieldName
            ((addField f sect fieldName v1 src1 t1 c1 m1 es1 n1).1.getSection sect) =
          some e1 := by
        rw [h1]
        rw [getSection_updateCompleteness, getSection_setSection _ hs]
        exact dictGet_dictInsert_self _ _ _
      have hd2 : turnDecision
          (dictGet fieldName
            ((addField f sect fieldName v1 src1 t1 c1 m1 es1 n1).1.getSection sect)) t2 =
          some e1.value := by
        rw [hget1]; simp [turnDecision, he1, newFieldEntry]; omega
      have h2 := addField_of_turnDecision_some _ sect fieldName v2 src2 t2 c2
        m2 es2 n2 _ hs hv2 hd2
      rw [h2]
      rw [getSection_updateCompleteness, getSection_setSection _ hs]
      rw [dictGet_dictInsert_self]
      rfl
    · -- order t2 then t1
      have h2 := addField_of_turnDecision_some f sect fieldName v2 src2 t2 c2
        m2 es2 n2 none hs hv2 hfresh2
      set e2 := newFieldEntry v2 src2 t2 c2 m2 es2 n2 none with he2
      have hget2 :
          dictGet fieldName
            ((addField f sect fieldName v2 src2 t2 c2 m2 es2 n2).1.getSection sect) =
          some e2 := by
        rw [h2]
        rw [getSection_updateCompleteness, getSection_setSection _ hs]
        exact dictGet_dictInsert_self _ _ _
      have hd1 : turnDecision
          (dictGet fieldName
            ((addField f sect fieldName v2 src2 t2 c2 m2 es2 n2).1.getSection sect)) t1 =
          none := by
        rw [hget2]; simp [turnDecision, he2, newFieldEntry]; omega
      have h1 := addField_of_turnDecision_none _ sect fieldName v1 src1 t1 c1
        m1 es1 n1 hs hv1 hd1
      rw [h1]
      rw [hget2]
      rfl

/-- C3 witness: the stale write of spec scenario 2 (value `"Amit"` at the
turn already recorded for `"Raj"`) is rejected and leaves the form unchanged,
and the fresh-field commutation holds at turns 1 < 2. -/
theorem add_field_turn_ordering_witness :
    (((addField
        { customer := [("first_name", { value := some "Raj", turn := some 1 })] }
        "customer" "first_name" (some "Amit") "user" 1 1 "user" "user_edit" 0).2 =
          true) ↔ (1 : ℤ) < 1)
    ∧ ((1 : ℤ) ≤ 1 →
        addField
          { customer := [("first_name", { value := some "Raj", turn := some 1 })] }
          "customer" "first_name" (some "Amit") "user" 1 1 "user" "user_edit" 0 =
        ({ customer := [("first_name", { value := some "Raj", turn := some 1 })] },
          false)) :=
  add_field_turn_ordering.1
    { customer := [("first_name", { value := some "Raj", turn := some 1 })] }
    "customer" "first_name" (some "Amit") "user" 1 1 "user" "user_edit" 0
    { value := some "Raj", turn := some 1 } 1
    (Or.inl rfl) (by decide) (by decide) rfl

theorem completeness_formula_one_filled :
    min 100 (pyRound1 (((1 : ℕ) : ℚ) / ((TOTAL_POSSIBLE_FIELDS : ℕ) : ℚ) * 100)) =
      31 / 5 := by
  have h1 : (((1 : ℕ) : ℚ)) / ((TOTAL_POSSIBLE_FIELDS : ℕ) : ℚ) * 100 * 10 =
      125 / 2 := by
    norm_num [TOTAL_POSSIBLE_FIELDS]
  unfold pyRound1 pyRoundHalfEven
  rw [h1]
  have hf : ⌊(125 : ℚ) / 2⌋ = 62 := by
    rw [Int.floor_eq_iff]
    norm_num
  rw [hf]
  norm_num [min_def]

theorem add_field_haan_pct :
    (addField freshForm "customer" "first_name" (some "Haan") "user" 1 1 "user"
      "initial_entry" 0).1.metadata.data_completeness = 31 / 5 := by
  have hd : turnDecision
      (dictGet "first_name" (freshForm.getSection "customer")) 1 = some none := rfl
  have h := addField_of_turnDecision_some freshForm "customer" "first_name"
    (some "Haan") "user" 1 1 "user" "initial_entry" 0 none (Or.inl rfl)
    (by decide) hd
  rw [h, updateCompleteness_pct]
  have hc : countFilled
      (freshForm.setSection "customer"
        (dictInsert "first_name"
          (newFieldEntry (some "Haan") "user" 1 1 "user" "initial_entry" 0 none)
          (freshForm.getSection "customer"))) = 1 := by decide
  rw [hc]
  exact completeness_formula_one_filled

/-- C4 counterexample: on a fresh scratchpad
`add_field("customer", "first_name", "Haan", turn=1)` is NOT rejected —
`add_field` only rejects `None`/`"unknown"`/`"none"`/`""`, and `"haan"` is not
among them — so the call returns `True`, stores the entry, and the
completeness moves off 0% (to 6.2%), refuting the claim. -/
theorem add_field_haan_accepted :
    (addField freshForm "customer" "first_name" (some "Haan") "user" 1 1 "user"
      "initial_entry" 0).2 = true
    ∧ (addField freshForm "customer" "first_name" (some "Haan") "user" 1 1 "user"
        "initial_entry" 0).1.metadata.data_completeness ≠ 0 := by
  refine ⟨by decide, ?_⟩
  rw [add_field_haan_pct]
  norm_num

/-- C4 amended: `add_field("customer", "first_name", "Haan", turn=1)` on a
fresh scratchpad is accepted (`add_field`'s validity gate rejects only
`None`/`"unknown"`/`"none"`/`""`; the greeting-stopword filter lives in the
extraction and retroactive-scan layers, not in `add_field`), the entry is
stored with value `"Haan"`, and the completeness becomes
`round(1/16*100, 1) = 6.2`%. -/
theorem add_field_haan_amended :
    (addField freshForm "customer" "first_name" (some "Haan") "user" 1 1 "user"
      "initial_entry" 0).2 = true
    ∧ (dictGet "first_name"
        (addField freshForm "customer" "first_name" (some "Haan") "user" 1 1 "user"
          "initial_entry" 0).1.customer).map FieldEntry.value = some (some "Haan")
    ∧ (addField freshForm "customer" "first_name" (some "Haan") "user" 1 1 "user"
        "initial_entry" 0).1.metadata.data_completeness = 31 / 5 := by
  refine ⟨by decide, by decide, add_field_haan_pct⟩

/-- C6 counterexample: an accepted write that supersedes an existing entry
WITHOUT a recorded turn does not stash the superseded value: over
`{value := "Raj", turn := None}` the write of `"Amit"` at turn 2 is accepted,
yet the stored `previous_value` is `None`, not `"Raj"` — refuting the
"whether or not it has a recorded turn" part of the claim. -/
theorem add_field_previous_value_lost_without_turn :
    (addField { customer := [("first_name", { value := some "Raj" })] }
      "customer" "first_name" (some "Amit") "user" 2 1 "user" "user_edit" 5).2 = true
    ∧ (dictGet "first_name"
        (addField { customer := [("first_name", { value := some "Raj" })] }
          "customer" "first_name" (some "Amit") "user" 2 1 "user" "user_edit"
          5).1.customer).map FieldEntry.previous_value = some none
    ∧ (some "Raj" : Option String) ≠ none := by
  refine ⟨by decide, by decide, by decide⟩

/-- C6 amended: when an accepted `add_field` write supersedes an existing
entry that HAS a recorded turn, the new entry stashes the superseded value as
`previous_value` and stamps `edited_at`; when the existing entry has no
recorded turn, the write is accepted but `previous_value` is `None`. -/
theorem add_field_previous_value_policy :
    ∀ (f : ScratchpadForm) (sect fieldName : String) (value : Option String)
      (src : String) (turn : Int) (conf : ℚ) (m es : String) (now : Nat)
      (e : FieldEntry),
      validSection sect → isPlaceholder value = false →
      dictGet fieldName (f.getSection sect) = some e →
      ((∀ t : Int, e.turn = some t → t < turn →
          (addField f sect fieldName value src turn conf m es now).2 = true
          ∧ dictGet fieldName
              ((addField f sect fieldName value src turn conf m es now).1.getSection
                sect) =
            some (newFieldEntry value src turn conf m es now e.value))
        ∧ (e.turn = none →
          (addField f sect fieldName value src turn conf m es now).2 = true
          ∧ dictGet fieldName
              ((addField f sect fieldName value src turn conf m es now).1.getSection
                sect) =
            some (newFieldEntry value src turn conf m es now none)))
      ∧ (∀ prev : Option String,
          (newFieldEntry value src turn conf m es now prev).previous_value = prev
          ∧ (newFieldEntry value src turn conf m es now prev).edited_at = some now) := by
  intro f sect fieldName value src turn conf m es now e hs hv he
  refine ⟨⟨?_, ?_⟩, fun prev => ⟨rfl, rfl⟩⟩
  · intro t ht hlt
    have hd : turnDecision (dictGet fieldName (f.getSection sect)) turn =
        some e.value := by
      rw [he]; simp [turnDecision, ht]; omega
    have hres := addField_of_turnDecision_some f sect fieldName value src turn conf
      m es now e.value hs hv hd
    rw [hres]
    refine ⟨rfl, ?_⟩
    rw [getSection_updateCompleteness, getSection_setSection _ hs]
    exact dictGet_dictInsert_self _ _ _
  · intro ht
    have hd : turnDecision (dictGet fieldName (f.getSection sect)) turn =
        some none := by
      rw [he]; simp [turnDecision, ht]
    have hres := addField_of_turnDecision_some f sect fieldName value src turn conf
      m es now none hs hv hd
    rw [hres]
    refine ⟨rfl, ?_⟩
    rw [getSection_updateCompleteness, getSection_setSection _ hs]
    exact dictGet_dictInsert_self _ _ _

/-- C6 witness: over the stored `"Raj"` at turn 1 (spec scenario 3), the
accepted write of `"Amit"` at turn 2 stores `previous_value = "Raj"` and
stamps `edited_at`. -/
theorem add_field_previous_value_policy_witness :
    ((∀ t : Int,
        ({ value := some "Raj", turn := some 1 } : FieldEntry).turn = some t →
        t < 2 →
        (addField { customer := [("first_name", { value := some "Raj", turn := some 1 })] }
          "customer" "first_name" (some "Amit") "user" 2 1 "user" "user_edit" 7).2 =
          true
        ∧ dictGet "first_name"
            ((addField
              { customer := [("first_name", { value := some "Raj", turn := some 1 })] }
              "customer" "first_name" (some "Amit") "user" 2 1 "user" "user_edit"
              7).1.getSection "customer") =
          some (newFieldEntry (some "Amit") "user" 2 1 "user" "user_edit" 7
            ({ value := some "Raj", turn := some 1 } : FieldEntry).value))
      ∧ (({ value := some "Raj", turn := some 1 } : FieldEntry).turn = none →
        (addField { customer := [("first_name", { value := some "Raj", turn := some 1 })] }
          "customer" "first_name" (some "Amit") "user" 2 1 "user" "user_edit" 7).2 =
          true
        ∧ dictGet "first_name"
            ((addField
              { customer := [("first_name", { value := some "Raj", turn := some 1 })] }
              "customer" "first_name" (some "Amit") "user" 2 1 "user" "user_edit"
              7).1.getSection "customer") =
          some (newFieldEntry (some "Amit") "user" 2 1 "user" "user_edit" 7 none)))
    ∧ (∀ prev : Option String,
        (newFieldEntry (some "Amit") "user" 2 1 "user" "user_edit" 7
          prev).previous_value = prev
        ∧ (newFieldEntry (some "Amit") "user" 2 1 "user" "user_edit" 7
            prev).edited_at = some 7) :=
  add_field_previous_value_policy
    { customer := [("first_name", { value := some "Raj", turn := some 1 })] }
    "customer" "first_name" (some "Amit") "user" 2 1 "user" "user_edit" 7
    { value := some "Raj", turn := some 1 }
    (Or.inl rfl) (by decide) rfl

theorem addField_accept_then_same_turn_rejected
    (f : ScratchpadForm) (sect fieldName : String) (v1 : Option String)
    (src1 : String) (c : Int) (q1 : ℚ) (m1 es1 : String) (n1 : Nat)
    (hs : validSection sect)
    (h1 : (addField f sect fieldName v1 src1 c q1 m1 es1 n1).2 = true) :
    ∀ (v2 : Option String) (src2 : String) (q2 : ℚ) (m2 es2 : String) (n2 : Nat),
      addField (addField f sect fieldName v1 src1 c q1 m1 es1 n1).1
        sect fieldName v2 src2 c q2 m2 es2 n2 =
      ((addField f sect fieldName v1 src1 c q1 m1 es1 n1).1, false) := by
  intro v2 src2 q2 m2 es2 n2
  -- the first call accepted, so the value was valid and some `prev` was chosen
  by_cases hv1 : isPlaceholder v1 = true
  · exfalso
    unfold addField at h1
    rw [contains_of_validSection hs] at h1
    simp [hv1] at h1
  · rw [Bool.not_eq_true] at hv1
    rcases hpd : turnDecision (dictGet fieldName (f.getSection sect)) c with _ | prev
    · exfalso
      have := addField_of_turnDecision_none f sect fieldName v1 src1 c q1 m1 es1 n1
        hs hv1 hpd
      rw [this] at h1
      simp at h1
    · have hacc := addField_of_turnDecision_some f sect fieldName v1 src1 c q1 m1
        es1 n1 prev hs hv1 hpd
      have hget : dictGet fieldName
          ((addField f sect fieldName v1 src1 c q1 m1 es1 n1).1.getSection sect) =
          some (newFieldEntry v1 src1 c q1 m1 es1 n1 prev) := by
        rw [hacc]
        rw [getSection_updateCompleteness, getSection_setSection _ hs]
        exact dictGet_dictInsert_self _ _ _
      by_cases hv2 : isPlaceholder v2 = true
      · unfold addField
        rw [contains_of_validSection hs]
        simp [hv2]
      · rw [Bool.not_eq_true] at hv2
        have hd2 : turnDecision
            (dictGet fieldName
              ((addField f sect fieldName v1 src1 c q1 m1 es1 n1).1.getSection sect))
            c = none := by
          rw [hget]
          simp [turnDecision, newFieldEntry]
        exact addField_of_turnDecision_none _ sect fieldName v2 src2 c q2 m2 es2 n2
          hs hv2 hd2

/-- C10: every embedded production call site passes a constant turn to
`add_field` — the step 8.4 population loop and
`update_from_extraction` pass `turn=0` by definition, and
`_add_extracted_data` computes `len(metadata.get("turns", [])) + 1`, which is
`1` whenever the metadata has no `"turns"` key (nothing in the repository
ever writes one).  Hence once a write at the call site's constant turn is
accepted for a field, every later `add_field` write to that field at the same
constant turn is rejected and leaves the form unchanged — the first accepted
value wins, over arbitrarily many retries. -/
theorem call_site_constant_turn_first_write_wins :
    (∀ md : ScratchMetadata, md.turns = none → bookingTurn md = 1)
    ∧ (∀ (f : ScratchpadForm) (sect fieldName : String) (v1 : Option String)
        (src1 : String) (c : Int) (q1 : ℚ) (m1 es1 : String) (n1 : Nat),
        validSection sect →
        (addField f sect fieldName v1 src1 c q1 m1 es1 n1).2 = true →
        ∀ later : List (Option String × String × ℚ × String × String × Nat),
          later.foldl
            (fun acc w =>
              (addField acc sect fieldName w.1 w.2.1 c w.2.2.1 w.2.2.2.1
                w.2.2.2.2.1 w.2.2.2.2.2).1)
            (addField f sect fieldName v1 src1 c q1 m1 es1 n1).1 =
          (addField f sect fieldName v1 src1 c q1 m1 es1 n1).1) := by
  constructor
  · intro md h
    simp [bookingTurn, h]
  · intro f sect fieldName v1 src1 c q1 m1 es1 n1 hs h1 later
    have hstable := addField_accept_then_same_turn_rejected f sect fieldName v1
      src1 c q1 m1 es1 n1 hs h1
    induction later with
    | nil => rfl
    | cons w ws ih =>
        simp only [List.foldl_cons]
        rw [hstable w.1 w.2.1 w.2.2.1 w.2.2.2.1 w.2.2.2.2.1 w.2.2.2.2.2]
        exact ih

/-- C10 witness: a first accepted write of `"Raj"` at the constant turn 0 is
never displaced by later turn-0 writes (here `"Amit"` then `"Suresh"`), and a
metadata dict with no `"turns"` key makes `_add_extracted_data` use turn 1. -/
theorem call_site_constant_turn_first_write_wins_witness :
    bookingTurn ({} : ScratchMetadata) = 1
    ∧ ([(some "Amit", "collection", (1 : ℚ), "user", "initial_entry", (3 : Nat)),
        (some "Suresh", "collection", (1 : ℚ), "user", "initial_entry", (4 : Nat))].foldl
        (fun acc w =>
          (addField acc "customer" "first_name" w.1 w.2.1 0 w.2.2.1 w.2.2.2.1
            w.2.2.2.2.1 w.2.2.2.2.2).1)
        (addField freshForm "customer" "first_name" (some "Raj") "collection" 0 1
          "user" "initial_entry" 0).1 =
      (addField freshForm "customer" "first_name" (some "Raj") "collection" 0 1
        "user" "initial_entry" 0).1) :=
  ⟨call_site_constant_turn_first_write_wins.1 {} rfl,
   call_site_constant_turn_first_write_wins.2 freshForm "customer" "first_name"
     (some "Raj") "collection" 0 1 "user" "initial_entry" 0 (Or.inl rfl)
     (by decide)
     [(some "Amit", "collection", 1, "user", "initial_entry", 3),
      (some "Suresh", "collection", 1, "user", "initial_entry", 4)]⟩

theorem filledValue_of_not_placeholder {v : Option String}
    (h : isPlaceholder v = false) : filledValue v = true := by
  cases v with
  | none => simp [isPlaceholder] at h
  | some s =>
      simp only [isPlaceholder] at h
      simp only [filledValue, h, Bool.and_true, Bool.not_false]
      by_cases hs : s = ""
      · subst hs
        simp [strLower, placeholderStrings] at h
      · simp [hs]

theorem pyRound1_zero : pyRound1 0 = 0 := by
  unfold pyRound1 pyRoundHalfEven
  norm_num

theorem completenessFormula_nonneg (f : ScratchpadForm) :
    0 ≤ completenessFormula f := by
  unfold completenessFormula
  refine le_min (by norm_num) (pyRound1_nonneg ?_)
  have h0 : (0 : ℚ) ≤ (countFilled f : ℚ) := by positivity
  have h16 : (0 : ℚ) < (TOTAL_POSSIBLE_FIELDS : ℚ) := by
    norm_num [TOTAL_POSSIBLE_FIELDS]
  positivity

theorem completenessFormula_le_100 (f : ScratchpadForm) :
    completenessFormula f ≤ 100 := min_le_left _ _

theorem completenessFormula_mono {f g : ScratchpadForm}
    (h : countFilled f ≤ countFilled g) :
    completenessFormula f ≤ completenessFormula g := by
  unfold completenessFormula
  refine min_le_min le_rfl (pyRound1_mono ?_)
  have hc : ((countFilled f : ℚ)) ≤ (countFilled g : ℚ) := by exact_mod_cast h
  have h16 : ((TOTAL_POSSIBLE_FIELDS : ℕ) : ℚ) = 16 := by
    norm_num [TOTAL_POSSIBLE_FIELDS]
  rw [h16]
  linarith

theorem validSection_of_contains {sect : String}
    (h : (["customer", "vehicle", "appointment"].contains sect) = true) :
    validSection sect := by
  simp at h
  exact h

theorem wellFormedPct_updateCompleteness (f : ScratchpadForm) :
    wellFormedPct (updateCompleteness f) := by
  unfold wellFormedPct
  rw [updateCompleteness_pct]
  unfold completenessFormula
  rw [countFilled_updateCompleteness]

theorem addField_wf_mono (f : ScratchpadForm) (sect fieldName : String)
    (value : Option String) (src : String) (turn : Int) (conf : ℚ) (m es : String)
    (now : Nat) (hwf : wellFormedPct f) :
    wellFormedPct (addField f sect fieldName value src turn conf m es now).1
    ∧ f.metadata.data_completeness ≤
        (addField f sect fieldName value src turn conf m es now).1.metadata.data_completeness := by
  by_cases hsec : (["customer", "vehicle", "appointment"].contains sect) = true
  · have hs := validSection_of_contains hsec
    by_cases hv : isPlaceholder value = true
    · have : addField f sect fieldName value src turn conf m es now = (f, false) := by
        unfold addField
        rw [hsec]
        simp [hv]
      rw [this]
      exact ⟨hwf, le_rfl⟩
    · rw [Bool.not_eq_true] at hv
      rcases hpd : turnDecision (dictGet fieldName (f.getSection sect)) turn
        with _ | prev
      · rw [addField_of_turnDecision_none f sect fieldName value src turn conf
          m es now hs hv hpd]
        exact ⟨hwf, le_rfl⟩
      · rw [addField_of_turnDecision_some f sect fieldName value src turn conf
          m es now prev hs hv hpd]
        refine ⟨wellFormedPct_updateCompleteness _, ?_⟩
        rw [updateCompleteness_pct, hwf]
        have hcf : countFilled f ≤
            countFilled
              (f.setSection sect
                (dictInsert fieldName
                  (newFieldEntry value src turn conf m es now prev)
                  (f.getSection sect))) :=
          countFilled_setSection_insert hs
            (filledValue_of_not_placeholder (v := value) hv)
        exact completenessFormula_mono hcf
  · have : addField f sect fieldName value src turn conf m es now = (f, false) := by
      rw [Bool.not_eq_true] at hsec
      unfold addField
      rw [hsec]
      rfl
    rw [this]
    exact ⟨hwf, le_rfl⟩

theorem addCalls_wf_mono (ops : List AddCall) :
    ∀ f : ScratchpadForm, wellFormedPct f →
      wellFormedPct (ops.foldl applyAddCall f)
      ∧ f.metadata.data_completeness ≤
          (ops.foldl applyAddCall f).metadata.data_completeness := by
  induction ops with
  | nil => exact fun f hwf => ⟨hwf, le_rfl⟩
  | cons op rest ih =>
      intro f hwf
      have hstep := addField_wf_mono f op.sect op.fieldName op.value op.source
        op.turn op.confidence op.extractionMethod op.editSource op.now hwf
      have hrest := ih (applyAddCall f op) hstep.1
      refine ⟨hrest.1, le_trans hstep.2 hrest.2⟩

theorem wellFormedPct_fresh : wellFormedPct freshForm := by
  unfold wellFormedPct completenessFormula
  have h0 : countFilled freshForm = 0 := rfl
  rw [h0]
  have : (((0 : ℕ) : ℚ)) / ((TOTAL_POSSIBLE_FIELDS : ℕ) : ℚ) * 100 = 0 := by
    norm_num
  rw [this, pyRound1_zero]
  show (0 : ℚ) = min 100 0
  norm_num

/-- C5: after every mutation the stored completeness equals
`min(100, round(filled / TOTAL_POSSIBLE_FIELDS * 100, 1))` with `filled` the
count of non-placeholder entries (every mutating call re-runs
`_update_completeness`, and `clear_all` re-establishes the formula at 0);
the value always lies in `[0, 100]`; and it never decreases across a
sequence of `add_field` calls starting from a form whose stored completeness
matches its entries. -/
theorem scratchpad_completeness_formula :
    (∀ f : ScratchpadForm,
      (updateCompleteness f).metadata.data_completeness =
        min 100 (pyRound1 ((countFilled f : ℚ) / (TOTAL_POSSIBLE_FIELDS : ℚ) * 100)))
    ∧ (∀ f : ScratchpadForm, wellFormedPct (clearAll f))
    ∧ (∀ f : ScratchpadForm,
        0 ≤ (updateCompleteness f).metadata.data_completeness
        ∧ (updateCompleteness f).metadata.data_completeness ≤ 100)
    ∧ (∀ (f : ScratchpadForm) (ops : List AddCall), wellFormedPct f →
        f.metadata.data_completeness ≤
          (ops.foldl applyAddCall f).metadata.data_completeness) := by
  refine ⟨updateCompleteness_pct, ?_, ?_, ?_⟩
  · intro f
    unfold wellFormedPct completenessFormula
    have h0 : countFilled (clearAll f) = 0 := rfl
    rw [h0]
    have hz : (((0 : ℕ) : ℚ)) / ((TOTAL_POSSIBLE_FIELDS : ℕ) : ℚ) * 100 = 0 := by
      norm_num
    rw [hz, pyRound1_zero]
    show (0 : ℚ) = min 100 0
    norm_num
  · intro f
    rw [updateCompleteness_pct]
    exact ⟨completenessFormula_nonneg f, completenessFormula_le_100 f⟩
  · intro f ops hwf
    exact (addCalls_wf_mono ops f hwf).2

/-- C5 witness: from a fresh scratchpad, the accepted writes of `"Raj"` and a
phone number never decrease the stored completeness. -/
theorem scratchpad_completeness_formula_witness :
    freshForm.metadata.data_completeness ≤
      (([⟨"customer", "first_name", some "Raj", "user", 1, 1, "user",
          "initial_entry", 0⟩,
         ⟨"customer", "phone", some "9876543210", "user", 1, 1, "user",
          "initial_entry", 0⟩] : List AddCall).foldl applyAddCall
        freshForm).metadata.data_completeness :=
  scratchpad_completeness_formula.2.2.2 freshForm
    [⟨"customer", "first_name", some "Raj", "user", 1, 1, "user",
      "initial_entry", 0⟩,
     ⟨"customer", "phone", some "9876543210", "user", 1, 1, "user",
      "initial_entry", 0⟩]
    wellFormedPct_fresh

theorem contains_of_mem {a : String} {l : List String} (h : a ∈ l) :
    l.contains a = true := by
  simpa using h

theorem countRequiredSection_le_of_allowed {d : SectionDict}
    {allowed : List String} (hd : ∀ kv ∈ d, kv.1 ∈ allowed) :
    countRequiredSection d ≤ requiredFields.countP fun n => allowed.contains n := by
  unfold countRequiredSection
  apply List.countP_mono_left
  intro n _ hp
  unfold requiredPresent at hp
  rcases hg : dictGet n d with _ | e
  · rw [hg] at hp
    simp at hp
  · exact contains_of_mem (hd (n, e) (dictGet_mem hg))

theorem countRequired_le_of_discipline {f : ScratchpadForm}
    (hd : sectionDiscipline f) : countRequired f ≤ 7 := by
  obtain ⟨hc, hv, ha⟩ := hd
  have h1 := countRequiredSection_le_of_allowed hc
  have h2 := countRequiredSection_le_of_allowed hv
  have h3 := countRequiredSection_le_of_allowed ha
  have e1 : requiredFields.countP
      (fun n => allowedCustomerFields.contains n) = 3 := by decide
  have e2 : requiredFields.countP
      (fun n => allowedVehicleFields.contains n) = 3 := by decide
  have e3 : requiredFields.countP
      (fun n => allowedAppointmentFields.contains n) = 1 := by decide
  unfold countRequired
  omega

theorem isBookable_false_of_discipline {f : ScratchpadForm}
    (hd : sectionDiscipline f) :
    (updateCompleteness f).metadata.is_bookable = some false := by
  rw [updateCompleteness_isBookable]
  have h7 := countRequired_le_of_discipline hd
  have : decide (REQUIRED_FIELDS_FOR_BOOKING - 1 ≤ countRequired f) = false := by
    simp only [decide_eq_false_iff_not, REQUIRED_FIELDS_FOR_BOOKING]
    omega
  rw [this]

theorem orchestratorMap_allowed {k sect fld : String}
    (h : orchestratorMap k = some (sect, fld)) :
    (sect = "customer" ∧ fld ∈ allowedCustomerFields)
    ∨ (sect = "vehicle" ∧ fld ∈ allowedVehicleFields)
    ∨ (sect = "appointment" ∧ fld ∈ allowedAppointmentFields) := by
  unfold orchestratorMap at h
  by_cases h1 :
      (["first_name", "last_name", "full_name", "phone", "address"].contains k) = true
  · rw [if_pos h1] at h
    simp only [Option.some_inj, Prod.mk.injEq] at h
    obtain ⟨hsect, hfld⟩ := h
    subst hsect
    subst hfld
    simp at h1
    left
    refine ⟨rfl, ?_⟩
    rcases h1 with h | h | h | h | h <;> subst h <;> decide
  · rw [if_neg h1] at h
    by_cases h2 :
        (["vehicle_brand", "vehicle_model", "vehicle_plate", "vehicle_type"].contains
          k) = true
    · rw [if_pos h2] at h
      simp only [Option.some_inj, Prod.mk.injEq] at h
      obtain ⟨hsect, hfld⟩ := h
      subst hsect
      subst hfld
      right; left
      refine ⟨rfl, ?_⟩
      split_ifs <;> decide
    · rw [if_neg h2] at h
      by_cases h3 :
          (["appointment_date", "service_type", "service_tier", "time_slot",
            "notes"].contains k) = true
      · rw [if_pos h3] at h
        simp only [Option.some_inj, Prod.mk.injEq] at h
        obtain ⟨hsect, hfld⟩ := h
        subst hsect
        subst hfld
        right; right
        refine ⟨rfl, ?_⟩
        by_cases hd : k = "appointment_date"
        · rw [if_pos hd]
          decide
        · rw [if_neg hd]
          simp at h3
          rcases h3 with h | h | h | h | h
        
          · exact absurd h hd
          all_goals (subst h; decide)
      · rw [if_neg h3] at h
        simp at h

theorem bookingSectionMap_allowed {k sect fld : String}
    (h : bookingSectionMap k = some (sect, fld)) :
    (sect = "customer" ∧ fld ∈ allowedCustomerFields)
    ∨ (sect = "vehicle" ∧ fld ∈ allowedVehicleFields)
    ∨ (sect = "appointment" ∧ fld ∈ allowedAppointmentFields) := by
  unfold bookingSectionMap at h
  split_ifs at h <;>
    (simp only [Option.some_inj, Prod.mk.injEq] at h
     obtain ⟨hsect, hfld⟩ := h
     subst hsect
     subst hfld
     decide)

theorem sectionDiscipline_addField {f : ScratchpadForm} {sect fld : String}
    (value : Option String) (src : String) (turn : Int) (conf : ℚ) (m es : String)
    (now : Nat) (hdisc : sectionDiscipline f)
    (hb : (f.metadata.is_bookable).getD false = false)
    (hallow : (sect = "customer" ∧ fld ∈ allowedCustomerFields)
      ∨ (sect = "vehicle" ∧ fld ∈ allowedVehicleFields)
      ∨ (sect = "appointment" ∧ fld ∈ allowedAppointmentFields)) :
    sectionDiscipline (addField f sect fld value src turn conf m es now).1
    ∧ ((addField f sect fld value src turn conf m es now).1.metadata.is_bookable).getD
        false = false := by
  have hs : validSection sect := by
    rcases hallow with ⟨h, _⟩ | ⟨h, _⟩ | ⟨h, _⟩
    · exact Or.inl h
    · exact Or.inr (Or.inl h)
    · exact Or.inr (Or.inr h)
  by_cases hv : isPlaceholder value = true
  · have : addField f sect fld value src turn conf m es now = (f, false) := by
      unfold addField
      rw [contains_of_validSection hs]
      simp [hv]
    rw [this]
    exact ⟨hdisc, hb⟩
  · rw [Bool.not_eq_true] at hv
    rcases hpd : turnDecision (dictGet fld (f.getSection sect)) turn with _ | prev
    · rw [addField_of_turnDecision_none f sect fld value src turn conf m es now
        hs hv hpd]
      exact ⟨hdisc, hb⟩
    · rw [addField_of_turnDecision_some f sect fld value src turn conf m es now
        prev hs hv hpd]
      obtain ⟨hdc, hdv, hda⟩ := hdisc
      have hgdisc : sectionDiscipline
          (f.setSection sect
            (dictInsert fld (newFieldEntry value src turn conf m es now prev)
              (f.getSection sect))) := by
        rcases hallow with ⟨hse, hfl⟩ | ⟨hse, hfl⟩ | ⟨hse, hfl⟩ <;> subst hse <;>
          refine ⟨?_, ?_, ?_⟩ <;>
          simp only [ScratchpadForm.setSection, ScratchpadForm.getSection] <;>
          simp <;>
          intro a b hab <;>
          first
          | (rcases mem_dictInsert hab with hh | hh
             · rw [Prod.mk.injEq] at hh
               rw [hh.1]
               exact hfl
             · first
               | exact hdc (a, b) hh
               | exact hdv (a, b) hh
               | exact hda (a, b) hh)
          | exact hdc (a, b) hab
          | exact hdv (a, b) hab
          | exact hda (a, b) hab
      constructor
      · have h1 : (updateCompleteness
            (f.setSection sect
              (dictInsert fld (newFieldEntry value src turn conf m es now prev)
                (f.getSection sect)))).customer =
            (f.setSection sect
              (dictInsert fld (newFieldEntry value src turn conf m es now prev)
                (f.getSection sect))).customer := rfl
        obtain ⟨g1, g2, g3⟩ := hgdisc
        exact ⟨by rw [updateCompleteness_customer]; exact g1,
               by rw [updateCompleteness_vehicle]; exact g2,
               by rw [updateCompleteness_appointment]; exact g3⟩
      · rw [isBookable_false_of_discipline hgdisc]
        rfl

theorem collectOp_invariant (f : ScratchpadForm) (op : CollectOp)
    (hdisc : sectionDiscipline f)
    (hb : (f.metadata.is_bookable).getD false = false) :
    sectionDiscipline (applyCollectOp f op)
    ∧ ((applyCollectOp f op).metadata.is_bookable).getD false = false := by
  cases op with
  | collected k v =>
      unfold applyCollectOp populateCollected
      simp only [List.foldl_cons, List.foldl_nil]
      rcases v with _ | s
      · exact ⟨hdisc, hb⟩
      · rcases hm : orchestratorMap k with _ | ⟨sect, fld⟩
        · simp only [hm]
          exact ⟨hdisc, hb⟩
        · simp only [hm]
          exact sectionDiscipline_addField (some s) "collection" 0 1 "collected"
            "initial_entry" 0 hdisc hb (orchestratorMap_allowed hm)
  | bookingExtracted k v =>
      unfold applyCollectOp bookingAddExtracted
      simp only [List.foldl_cons, List.foldl_nil]
      rcases v with _ | s
      · exact ⟨hdisc, hb⟩
      · rcases hm : bookingSectionMap k with _ | ⟨sect, fld⟩
        · simp only [hm]
          exact ⟨hdisc, hb⟩
        · simp only [hm]
          exact sectionDiscipline_addField (some s) "direct_extraction"
            (bookingTurn f.metadata) (85 / 100) "user" "initial_entry" 0 hdisc hb
            (bookingSectionMap_allowed hm)

theorem collectOps_invariant (ops : List CollectOp) :
    ∀ f : ScratchpadForm, sectionDiscipline f →
      (f.metadata.is_bookable).getD false = false →
      sectionDiscipline (ops.foldl applyCollectOp f)
      ∧ ((ops.foldl applyCollectOp f).metadata.is_bookable).getD false = false := by
  induction ops with
  | nil => exact fun f hdisc hb => ⟨hdisc, hb⟩
  | cons op rest ih =>
      intro f hdisc hb
      have hstep := collectOp_invariant f op hdisc hb
      exact ih (applyCollectOp f op) hstep.1 hstep.2

/-- C9 counterexample: `is_bookable` CAN become `True` through the system's
own write paths.  The state-keyed mapping of
`ScratchpadCoordinator.update_from_extraction` forwards `first_name`,
`last_name` and `phone` unchanged into the vehicle section (state
VEHICLE_DETAILS) and the appointment section (state DATE_SELECTION); since
`_update_completeness` counts every required name in every section, the
scratchpad below — populated exclusively by `process_message`'s step 8.4 loop
and `update_from_extraction` — reaches `filled_required = 13 ≥ 11`, so
`is_bookable` is stored as `True`, refuting the claim. -/
theorem is_bookable_reachable_via_state_keyed_writes :
    (([("first_name", some "Raj"), ("last_name", some "Sharma"),
       ("phone", some "9876543210")].foldl
      (fun acc kv =>
        updateFromExtraction acc ConversationState.dateSelection kv.1 kv.2)
      (([("first_name", some "Raj"), ("last_name", some "Sharma"),
         ("phone", some "9876543210")].foldl
        (fun acc kv =>
          updateFromExtraction acc ConversationState.vehicleDetails kv.1 kv.2)
        (populateCollected freshForm
          [("first_name", some "Raj"), ("last_name", some "Sharma"),
           ("phone", some "9876543210"), ("vehicle_brand", some "Honda"),
           ("vehicle_model", some "City"), ("vehicle_plate", some "MH12AB1234"),
           ("appointment_date", some "tomorrow")]))))).metadata.is_bookable =
      some true := by
  decide

/-- C9 amended: restricted to the fixed field-to-section maps — the step 8.4
population loop of `process_message` and `_add_extracted_data`'s
`section_map`, which place each of the seven counted required names in
exactly one section — the flag is unreachable: any section-disciplined
scratchpad has `filled_required ≤ 7 < 11 = REQUIRED_FIELDS_FOR_BOOKING - 1`,
so recomputation stores `is_bookable = False`, and any sequence of writes
through those two maps keeps `is_bookable` off `True`.  The state-keyed
`update_from_extraction` mapping is what breaks the claim (see the
counterexample). -/
theorem is_bookable_false_via_fixed_maps :
    (∀ f : ScratchpadForm, sectionDiscipline f →
        countRequired f ≤ 7
        ∧ (updateCompleteness f).metadata.is_bookable = some false)
    ∧ (∀ ops : List CollectOp,
        ((ops.foldl applyCollectOp freshForm).metadata.is_bookable).getD false =
          false) := by
  constructor
  · intro f hdisc
    exact ⟨countRequired_le_of_discipline hdisc, isBookable_false_of_discipline hdisc⟩
  · intro ops
    refine (collectOps_invariant ops freshForm ?_ ?_).2
    · exact ⟨fun kv h => absurd h (List.not_mem_nil kv),
             fun kv h => absurd h (List.not_mem_nil kv),
             fun kv h => absurd h (List.not_mem_nil kv)⟩
    · rfl

/-- C9 witness: a concrete section-disciplined scratchpad (one filled entry
per section, all placed by the fixed maps) has `filled_required = 3 ≤ 7` and
recomputes `is_bookable = False`. -/
theorem is_bookable_false_via_fixed_maps_witness :
    countRequired
        (populateCollected freshForm
          [("first_name", some "Raj"), ("vehicle_brand", some "Honda"),
           ("appointment_date", some "tomorrow")]) ≤ 7
    ∧ (updateCompleteness
        (populateCollected freshForm
          [("first_name", some "Raj"), ("vehicle_brand", some "Honda"),
           ("appointment_date", some "tomorrow")])).metadata.is_bookable =
      some false :=
  is_bookable_false_via_fixed_maps.1
    (populateCollected freshForm
      [("first_name", some "Raj"), ("vehicle_brand", some "Honda"),
       ("appointment_date", some "tomorrow")])
    (by
      refine ⟨?_, ?_, ?_⟩ <;> decide)

/-- C8 counterexample: the retroactive name scan DOES return a candidate
whose last name is a greeting stopword — only the first name is checked
against `GREETING_STOPWORDS` (the vehicle-brand filter alone covers the last
name).  Over the single extractor output `("Raj", "hello")` the scan returns
the candidate although `"hello"` is in the stopword list, refuting the
claim. -/
theorem scan_for_name_returns_stopword_last_name :
    scanForName specVehicleBrands [("Raj", "hello")] = some ("Raj", "hello")
    ∧ GREETING_STOPWORDS.contains (strLower "hello") = true := by
  refine ⟨by decide, by decide⟩

/-- C8 amended: for every brand list and every sequence of extractor outputs,
a candidate returned by the retroactive name scan never has a FIRST name in
the greeting/courtesy stopword list (case-insensitively) and neither its
first nor its last name matches a vehicle-brand token; the stopword filter is
not applied to the last name. -/
theorem scan_for_name_filters :
    ∀ (brands : List String) (cands : List (String × String)) (f l : String),
      scanForName brands cands = some (f, l) →
      GREETING_STOPWORDS.contains (strLower f) = false
      ∧ isVehicleBrand brands f = false
      ∧ isVehicleBrand brands l = false := by
  intro brands cands
  induction cands with
  | nil =>
      intro f l h
      simp [scanForName] at h
  | cons c rest ih =>
      intro f l h
      obtain ⟨cf, cl⟩ := c
      unfold scanForName at h
      by_cases h1 : (isVehicleBrand brands (sanitizeName cf)
          || isVehicleBrand brands (sanitizeName cl)) = true
      · rw [if_pos h1] at h
        exact ih f l h
      · rw [if_neg h1] at h
        by_cases h2 : (sanitizeName cf ≠ ""
            && GREETING_STOPWORDS.contains (strLower (sanitizeName cf))) = true
        · rw [if_pos h2] at h
          exact ih f l h
        · rw [if_neg h2] at h
          by_cases h3 : (sanitizeName cf ≠ ""
              && !(["none", "n/a", "unknown"].contains
                    (strLower (sanitizeName cf)))) = true
          · rw [if_pos h3] at h
            simp only [Option.some_inj, Prod.mk.injEq] at h
            obtain ⟨hf, hl⟩ := h
            subst hf
            subst hl
            rw [Bool.not_eq_true] at h1 h2
            rw [Bool.or_eq_false_iff] at h1
            rw [Bool.and_eq_false_iff] at h2
            rw [Bool.and_eq_true] at h3
            refine ⟨?_, h1.1, h1.2⟩
            rcases h2 with h2 | h2
            · rw [h3.1] at h2
              exact absurd h2 (by simp)
            · exact h2
          · rw [if_neg h3] at h
            exact ih f l h

/-- C8 witness: a clean candidate `("Priya", "Sharma")` is returned by the
scan, and indeed its first name is no stopword and neither name matches a
brand token of the modelled brand list. -/
theorem scan_for_name_filters_witness :
    GREETING_STOPWORDS.contains (strLower "Priya") = false
    ∧ isVehicleBrand specVehicleBrands "Priya" = false
    ∧ isVehicleBrand specVehicleBrands "Sharma" = false :=
  scan_for_name_filters specVehicleBrands [("Priya", "Sharma")] "Priya" "Sharma"
    (by decide)

theorem finalizeChat_reuse (ctx : ContextMetadata) (scr : ScratchpadForm)
    (newId : String) (dumpOk : Bool) (i : String)
    (hex : ctx.service_request_id = some i) (hi : i ≠ "")
    (hpct : getCompleteness scr = 0) :
    finalizeChat ctx scr newId dumpOk =
      { ctx := ctx, scr := scr, serviceRequestId := some i,
        createdRequest := false, dumpCount := 0 } := by
  unfold finalizeChat
  rw [hex]
  have hcond : (optStrTruthy (some i) && decide (getCompleteness scr = 0)) = true := by
    simp [optStrTruthy, hi, hpct]
  rw [if_pos hcond]

theorem finalizeChat_create_clear (ctx : ContextMetadata) (scr : ScratchpadForm)
    (newId : String) (dumpOk : Bool)
    (hno : (optStrTruthy ctx.service_request_id &&
      decide (getCompleteness scr = 0)) = false)
    (hpct : getCompleteness scr ≠ 0) :
    finalizeChat ctx scr newId dumpOk =
      { ctx :=
          { ctx with
              service_request_id := some newId,
              confirmation_attempts := 0,
              booking_completed := true },
        scr := clearAll scr, serviceRequestId := some newId,
        createdRequest := true, dumpCount := if dumpOk then 1 else 0 } := by
  simp only [finalizeChat]
  rw [hno]
  simp only [Bool.false_eq_true, if_false]
  rw [if_pos (show CONFIRMATION_MODE = "CHAT" from rfl), if_neg hpct]

theorem finalizeChat_isSome (ctx : ContextMetadata) (scr : ScratchpadForm)
    (newId : String) (dumpOk : Bool) :
    (finalizeChat ctx scr newId dumpOk).serviceRequestId.isSome = true := by
  simp only [finalizeChat]
  by_cases hcond : (optStrTruthy ctx.service_request_id &&
      decide (getCompleteness scr = 0)) = true
  · rw [if_pos hcond]
    rw [Bool.and_eq_true] at hcond
    rcases hex : ctx.service_request_id with _ | i
    · rw [hex] at hcond
      simp [optStrTruthy] at hcond
    · simp [hex]
  · rw [Bool.not_eq_true] at hcond
    rw [hcond]
    simp only [Bool.false_eq_true, if_false]
    split_ifs <;> rfl

/-- C1 counterexample: a set `service_request_id` does not short-circuit
finalization.  The CONFIRM branch of `BookingFlowManager.process_for_booking`
has no idempotency check at all — with `metadata.service_request_id =
"SR-0001"` already set it builds a new `ServiceRequest` and overwrites the
stored id with `"SR-0002"` — and the CHAT-mode finalizer of
`process_message` reuses the stored id only when the scratchpad completeness
is `0.0`: with a populated scratchpad it, too, creates a new
`ServiceRequest`. -/
theorem finalize_overwrites_existing_id :
    (finalizeBookingConfirm { service_request_id := some "SR-0001" } freshForm
      "SR-0002").serviceRequestId = some "SR-0002"
    ∧ (finalizeBookingConfirm { service_request_id := some "SR-0001" } freshForm
        "SR-0002").ctx.service_request_id = some "SR-0002"
    ∧ (finalizeBookingConfirm { service_request_id := some "SR-0001" } freshForm
        "SR-0002").createdRequest = true
    ∧ (finalizeChat { service_request_id := some "SR-0001" }
        { customer := [("first_name", { value := some "Raj", turn := some 0 })],
          metadata := { data_completeness := 50 } } "SR-0002" true).createdRequest =
      true
    ∧ (finalizeChat { service_request_id := some "SR-0001" }
        { customer := [("first_name", { value := some "Raj", turn := some 0 })],
          metadata := { data_completeness := 50 } } "SR-0002"
        true).serviceRequestId = some "SR-0002"
    ∧ "SR-0002" ≠ "SR-0001" := by
  refine ⟨rfl, rfl, rfl, by decide, by decide, by decide⟩

/-- C1 amended: in the CHAT-mode finalizer the stored id is reused — id
returned unchanged, scratchpad untouched, nothing created or dumped — iff
`service_request_id` is set (non-empty) AND the scratchpad completeness is
`0.0`; under that protocol two sequential CHAT finalizations over a populated
scratchpad with a successful dump yield the same id and exactly one persisted
snapshot, because the first one records the id and clears the scratchpad.
The booking-flow CONFIRM entry point performs no such check and always builds
a new `ServiceRequest`, overwriting the stored id. -/
theorem finalize_idempotency_policy :
    (∀ (ctx : ContextMetadata) (scr : ScratchpadForm) (newId : String)
        (dumpOk : Bool) (i : String),
        ctx.service_request_id = some i → i ≠ "" → getCompleteness scr = 0 →
        finalizeChat ctx scr newId dumpOk =
          { ctx := ctx, scr := scr, serviceRequestId := some i,
            createdRequest := false, dumpCount := 0 })
    ∧ (∀ (ctx : ContextMetadata) (scr : ScratchpadForm) (newId : String),
        (finalizeBookingConfirm ctx scr newId).createdRequest = true
        ∧ (finalizeBookingConfirm ctx scr newId).ctx.service_request_id =
            some newId)
    ∧ (∀ (ctx : ContextMetadata) (scr : ScratchpadForm) (id1 id2 : String)
        (dumpOk2 : Bool),
        ctx.service_request_id = none → id1 ≠ "" →
        getCompleteness scr ≠ 0 →
        (finalizeChat ctx scr id1 true).dumpCount = 1
        ∧ finalizeChat (finalizeChat ctx scr id1 true).ctx
            (finalizeChat ctx scr id1 true).scr id2 dumpOk2 =
          { ctx := (finalizeChat ctx scr id1 true).ctx,
            scr := (finalizeChat ctx scr id1 true).scr,
            serviceRequestId := some id1, createdRequest := false,
            dumpCount := 0 }) := by
  refine ⟨finalizeChat_reuse, fun ctx scr newId => ⟨rfl, rfl⟩, ?_⟩
  intro ctx scr id1 id2 dumpOk2 hex hid1 hpct
  have hno : (optStrTruthy ctx.service_request_id &&
      decide (getCompleteness scr = 0)) = false := by
    rw [hex]
    simp [optStrTruthy]
  have h1 := finalizeChat_create_clear ctx scr id1 true hno hpct
  constructor
  · rw [h1]
    rfl
  · have hctx1 : (finalizeChat ctx scr id1 true).ctx.service_request_id =
        some id1 := by rw [h1]
    have hscr1 : getCompleteness (finalizeChat ctx scr id1 true).scr = 0 := by
      rw [h1]
      rfl
    exact finalizeChat_reuse _ _ id2 dumpOk2 id1 hctx1 hid1 hscr1

/-- C1 witness: starting with no recorded id and a half-full scratchpad, the
first CHAT finalization dumps one snapshot; the second returns the same
`"SR-0001"`, creates nothing and dumps nothing. -/
theorem finalize_idempotency_policy_witness :
    (finalizeChat { }
      { customer := [("first_name", { value := some "Raj", turn := some 0 })],
        metadata := { data_completeness := 50 } } "SR-0001" true).dumpCount = 1
    ∧ finalizeChat
        (finalizeChat { }
          { customer := [("first_name", { value := some "Raj", turn := some 0 })],
            metadata := { data_completeness := 50 } } "SR-0001" true).ctx
        (finalizeChat { }
          { customer := [("first_name", { value := some "Raj", turn := some 0 })],
            metadata := { data_completeness := 50 } } "SR-0001" true).scr
        "SR-0002" false =
      { ctx := (finalizeChat { }
          { customer := [("first_name", { value := some "Raj", turn := some 0 })],
            metadata := { data_completeness := 50 } } "SR-0001" true).ctx,
        scr := (finalizeChat { }
          { customer := [("first_name", { value := some "Raj", turn := some 0 })],
            metadata := { data_completeness := 50 } } "SR-0001" true).scr,
        serviceRequestId := some "SR-0001", createdRequest := false,
        dumpCount := 0 } :=
  finalize_idempotency_policy.2.2 { }
    { customer := [("first_name", { value := some "Raj", turn := some 0 })],
      metadata := { data_completeness := 50 } }
    "SR-0001" "SR-0002" false rfl (by decide) (by decide)

/-- C2: the persistence failure is NOT contained the way the claim states.
With a populated scratchpad (completeness 50%), a CHAT-mode finalization
whose `dump_service_request` raises still clears the scratchpad: the
`except` clause logs and falls through, and `clear_all()` runs
unconditionally after it.  No snapshot is persisted, yet all three sections
come back empty and the new id is recorded, so the retry the claim promises
finds an empty scratchpad. -/
theorem dump_failure_still_clears_scratchpad :
    (finalizeChat { }
      { customer := [("first_name", { value := some "Raj", turn := some 0 })],
        metadata := { data_completeness := 50 } } "SR-0001" false).dumpCount = 0
    ∧ (finalizeChat { }
        { customer := [("first_name", { value := some "Raj", turn := some 0 })],
          metadata := { data_completeness := 50 } } "SR-0001"
        false).scr.customer = []
    ∧ (finalizeChat { }
        { customer := [("first_name", { value := some "Raj", turn := some 0 })],
          metadata := { data_completeness := 50 } } "SR-0001"
        false).scr.metadata.data_completeness = 0
    ∧ (finalizeChat { }
        { customer := [("first_name", { value := some "Raj", turn := some 0 })],
          metadata := { data_completeness := 50 } } "SR-0001"
        false).ctx.service_request_id = some "SR-0001" := by
  refine ⟨by decide, by decide, by decide, by decide⟩

/-- C7: in CONFIRMATION with all confirmation-required fields present and no
confirmation signal (neither keywords nor the DSPy detector), a turn with no
edit/cancel keyword increments `confirmation_attempts` by exactly one and —
once the incremented counter reaches
`CONFIRMATION_AUTO_CONFIRM_ATTEMPTS = 3`, i.e. on the third consecutive
ambiguous turn — invokes the finalizer without an explicit "yes"; a turn
carrying an edit or cancel keyword (and no confirmation signal) instead
resets the counter to 0 and performs no finalization. -/
theorem confirmation_attempts_auto_confirm :
    ∀ (ctx : ContextMetadata) (scr : ScratchpadForm) (msg newId : String)
      (dumpOk : Bool),
      (anyKeyword msg confirmKeywords = false →
        anyKeyword msg editKeywords = false →
        anyKeyword msg cancelKeywords = false →
        ((ctx.confirmation_attempts + 1 < CONFIRMATION_AUTO_CONFIRM_ATTEMPTS →
            confirmationFlowStep ctx scr msg false true true newId dumpOk =
              { ctx :=
                  { ctx with
                      confirmation_attempts := ctx.confirmation_attempts + 1 },
                scr := scr, serviceRequestId := none, createdRequest := false,
                dumpCount := 0 })
          ∧ (CONFIRMATION_AUTO_CONFIRM_ATTEMPTS ≤ ctx.confirmation_attempts + 1 →
              confirmationFlowStep ctx scr msg false true true newId dumpOk =
                finalizeChat
                  { ctx with
                      confirmation_attempts := ctx.confirmation_attempts + 1 }
                  scr newId dumpOk
              ∧ (confirmationFlowStep ctx scr msg false true true newId
                  dumpOk).serviceRequestId.isSome = true)))
      ∧ ((anyKeyword msg editKeywords = true ∨ anyKeyword msg cancelKeywords = true) →
          anyKeyword msg confirmKeywords = false →
          confirmationFlowStep ctx scr msg false true true newId dumpOk =
            { ctx := { ctx with confirmation_attempts := 0 }, scr := scr,
              serviceRequestId := none, createdRequest := false,
              dumpCount := 0 }) := by
  intro ctx scr msg newId dumpOk
  constructor
  · intro hc he hca
    constructor
    · intro hlt
      have hdec : decide (CONFIRMATION_AUTO_CONFIRM_ATTEMPTS ≤
          ctx.confirmation_attempts + 1) = false := by
        rw [decide_eq_false_iff_not]
        omega
      simp only [confirmationFlowStep, hc, he, hca, hdec]
      rfl
    · intro hge
      have hdec : decide (CONFIRMATION_AUTO_CONFIRM_ATTEMPTS ≤
          ctx.confirmation_attempts + 1) = true := by
        rw [decide_eq_true_eq]
        omega
      constructor
      · simp only [confirmationFlowStep, hc, he, hca, hdec]
        rfl
      · have hstep : confirmationFlowStep ctx scr msg false true true newId
            dumpOk =
            finalizeChat
              { ctx with
                  confirmation_attempts := ctx.confirmation_attempts + 1 }
              scr newId dumpOk := by
          simp only [confirmationFlowStep, hc, he, hca, hdec]
          rfl
        rw [hstep]
        exact finalizeChat_isSome _ _ _ _
  · intro hec hc
    rcases hec with he | hca
    · have hna : (decide (CONFIRMATION_AUTO_CONFIRM_ATTEMPTS ≤
          ctx.confirmation_attempts + 1) && !anyKeyword msg editKeywords &&
          !anyKeyword msg cancelKeywords || (anyKeyword msg confirmKeywords ||
          false)) = false := by
        simp [hc, he]
      simp only [confirmationFlowStep, hc, he, hna]
      simp
    · have hna : (decide (CONFIRMATION_AUTO_CONFIRM_ATTEMPTS ≤
          ctx.confirmation_attempts + 1) && !anyKeyword msg editKeywords &&
          !anyKeyword msg cancelKeywords || (anyKeyword msg confirmKeywords ||
          false)) = false := by
        simp [hc, hca]
      simp only [confirmationFlowStep, hc, hca, hna]
      simp

/-- C7 witness: with two prior ambiguous confirmation turns recorded, a third
ambiguous message ("hmm" — no confirm/edit/cancel keyword, DSPy negative)
reaches the threshold 3 and the finalizer is invoked (a service-request id is
returned). -/
theorem confirmation_attempts_auto_confirm_witness :
    anyKeyword "hmm" confirmKeywords = false
    ∧ anyKeyword "hmm" editKeywords = false
    ∧ anyKeyword "hmm" cancelKeywords = false
    ∧ CONFIRMATION_AUTO_CONFIRM_ATTEMPTS ≤ 2 + 1
    ∧ (confirmationFlowStep { confirmation_attempts := 2 } freshForm "hmm" false
        true true "SR-0001" true).serviceRequestId.isSome = true :=
  ⟨by decide, by decide, by decide, by decide,
    (((confirmation_attempts_auto_confirm { confirmation_attempts := 2 } freshForm
        "hmm" "SR-0001" true).1 (by decide) (by decide) (by decide)).2
      (by decide)).2⟩
